import Mathlib

/-!
Shallow embedding of the line-scanning diagnostic utility in src/fix_s3.py.

The program reads a file, splits it into lines, and performs a single
enumerated pass over the lines.  Per line it applies an if/elif chain:
  1. the line contains the put-method signature substring
       -> put_method_start := index
  2. elif the line contains the exists-method signature substring
       -> exists_method_start := index
  3. elif index > 700 and stripped line equals a lone closing brace
       and index < 720 -> list_objects_end := index
It then prints three status lines, and, when
put_method_start and exists_method_start are both truthy in the Python
sense, a header plus the lines with indices in
range(put_method_start + 10, min(put_method_start + 20, exists_method_start)),
each prefixed with its index.
-/

set_option autoImplicit false

namespace FixS3

/-- The target substring identifying the start of the put method
(source line 28). -/
def putNeedle : String := "async fn put(&self, key: &str, data: &[u8])"

/-- The target substring identifying the start of the exists method
(source line 30). -/
def existsNeedle : String := "async fn exists(&self, key: &str)"

/-- Whether the first list begins the second, compared element by element. -/
def leadsWith : List Char → List Char → Bool
  | [], _ => true
  | _ :: _, [] => false
  | a :: as, b :: bs => a == b && leadsWith as bs

/-- Substring containment on character lists: some suffix of the second list
starts with the first list.  This models the Python expression
sub in line. -/
def listContains (sub : List Char) : List Char → Bool
  | [] => leadsWith sub []
  | c :: rest => leadsWith sub (c :: rest) || listContains sub rest

/-- Python sub in line on strings. -/
def strContains (line sub : String) : Bool :=
  listContains sub.data line.data

/-- Rule 1 test: the line contains the put-method signature substring. -/
def match1 (line : String) : Bool := strContains line putNeedle

/-- Rule 2 test: the line contains the exists-method signature substring. -/
def match2 (line : String) : Bool := strContains line existsNeedle

/-- The whitespace characters removed by Python str.strip with no
argument, restricted to ASCII. -/
def pyIsSpace (c : Char) : Bool :=
  c == ' ' || c == '\t' || c == '\n' || c == '\r' || c == '\x0b' || c == '\x0c'

/-- Python line.strip(): remove leading and trailing whitespace. -/
def pyStrip (s : String) : String :=
  ⟨((s.data.dropWhile pyIsSpace).reverse.dropWhile pyIsSpace).reverse⟩

/-- Rule 3 test (source line 32): index strictly above 700, the stripped
line is exactly a lone closing brace, and index strictly below 720. -/
def match3 (i : Nat) (line : String) : Bool :=
  decide (700 < i) && (pyStrip line == "\x7d") && decide (i < 720)

/-- The three landmark variables of the scan (source lines 23-25). -/
structure ScanState where
  put_method_start : Option Nat
  exists_method_start : Option Nat
  list_objects_end : Option Nat
deriving Repr, DecidableEq

/-- All three landmarks start out unset (Python None). -/
def initState : ScanState := ⟨none, none, none⟩

/-- One iteration of the scan loop body: the if/elif chain of source
lines 28-33. -/
def step (st : ScanState) (i : Nat) (line : String) : ScanState :=
  if match1 line then { st with put_method_start := some i }
  else if match2 line then { st with exists_method_start := some i }
  else if match3 i line then { st with list_objects_end := some i }
  else st

/-- The enumerated loop over the lines, carrying the current index. -/
def scanAux (i : Nat) (st : ScanState) : List String → ScanState
  | [] => st
  | line :: rest => scanAux (i + 1) (step st i line) rest

/-- The whole scan of source lines 27-33: enumerate from index 0 starting
with all landmarks unset. -/
def scan (lines : List String) : ScanState := scanAux 0 initState lines

/-- Python truthiness of an optional integer: None and 0 are falsy,
every other integer is truthy.  This models the guard
if put_method_start and exists_method_start (source line 40). -/
def pyTruthy : Option Nat → Bool
  | none => false
  | some 0 => false
  | some (_ + 1) => true

/-- How Python renders an optional integer inside an f-string:
None prints as None, an integer prints as its decimal digits. -/
def optRepr : Option Nat → String
  | none => "None"
  | some n => toString n

/-- The index range of the excerpt loop (source line 42):
range(p + 10, min(p + 20, e)). -/
def excerptRange (p e : Nat) : List Nat :=
  List.range' (p + 10) (min (p + 20) e - (p + 10))

/-- One printed excerpt line (source line 43): the index, a colon and a
space, then the line text. -/
def excerptLine (lines : List String) (i : Nat) : String :=
  toString i ++ ": " ++ lines.getD i ""

/-- Everything the program prints on a successful run: the three landmark
status lines, the optional excerpt header, and the excerpt lines. -/
structure Report where
  statusLines : List String
  excerptHeader : Option String
  excerptLines : List String
deriving Repr, DecidableEq

/-- The diagnostic output of a run (source lines 35-43). -/
def report (lines : List String) : Report :=
  let st := scan lines
  { statusLines := [
      "put method starts at line " ++ optRepr st.put_method_start,
      "exists method starts at line " ++ optRepr st.exists_method_start,
      "list_objects_end around line " ++ optRepr st.list_objects_end],
    excerptHeader :=
      if pyTruthy st.put_method_start && pyTruthy st.exists_method_start then
        some ("\nLines between put and exists (" ++ optRepr st.put_method_start
          ++ " to " ++ optRepr st.exists_method_start ++ "):")
      else none,
    excerptLines :=
      match st.put_method_start, st.exists_method_start with
      | some p, some e =>
        if pyTruthy (some p) && pyTruthy (some e) then
          (excerptRange p e).map (excerptLine lines)
        else []
      | _, _ => [] }

/-- The whole program (source lines 7-43): reading the file either fails,
in which case the failure propagates unhandled and nothing is printed, or
succeeds, in which case the content is split on newlines and the report is
produced. -/
def runProgram (readResult : Except String String) : Except String Report :=
  match readResult with
  | Except.error e => Except.error e
  | Except.ok content => Except.ok (report (content.splitOn "\n"))

/-- Rule 1 fires on a line exactly when match1 holds (first in the
elif chain). -/
def firesPut (_ : Nat) (line : String) : Bool := match1 line

/-- Rule 2 fires exactly when match1 fails and match2 holds. -/
def firesExists (_ : Nat) (line : String) : Bool := !match1 line && match2 line

/-- Rule 3 fires exactly when match1 and match2 fail and match3 holds. -/
def firesBlock (i : Nat) (line : String) : Bool :=
  !match1 line && !match2 line && match3 i line

/-- First-of-two on optional indices: the helper through which the scan is
related to the last firing index. -/
def oGet (a b : Option Nat) : Option Nat :=
  match a with
  | some j => some j
  | none => b

/-- The index of the last line, at absolute index i onward, on which the
predicate fires; none when it never fires. -/
def lastIdx (p : Nat → String → Bool) (i : Nat) : List String → Option Nat
  | [] => none
  | line :: rest =>
    match lastIdx p (i + 1) rest with
    | some j => some j
    | none => if p i line then some i else none

/-! ### Characterisation of the scan as a last-firing-index computation -/

theorem step_put (st : ScanState) (i : Nat) (l : String) :
    (step st i l).put_method_start =
      if firesPut i l = true then some i else st.put_method_start := by
  cases h1 : match1 l <;> cases h2 : match2 l <;> cases h3 : match3 i l <;>
    simp [step, firesPut, h1, h2, h3]

theorem step_exists_lm (st : ScanState) (i : Nat) (l : String) :
    (step st i l).exists_method_start =
      if firesExists i l = true then some i else st.exists_method_start := by
  cases h1 : match1 l <;> cases h2 : match2 l <;> cases h3 : match3 i l <;>
    simp [step, firesExists, h1, h2, h3]

theorem step_block (st : ScanState) (i : Nat) (l : String) :
    (step st i l).list_objects_end =
      if firesBlock i l = true then some i else st.list_objects_end := by
  cases h1 : match1 l <;> cases h2 : match2 l <;> cases h3 : match3 i l <;>
    simp [step, firesBlock, h1, h2, h3]

theorem scanAux_put (ls : List String) : ∀ (i : Nat) (st : ScanState),
    (scanAux i st ls).put_method_start =
      oGet (lastIdx firesPut i ls) st.put_method_start := by
  induction ls with
  | nil => intro i st; rfl
  | cons l rest ih =>
    intro i st
    show (scanAux (i + 1) (step st i l) rest).put_method_start = _
    rw [ih, step_put]
    cases h : lastIdx firesPut (i + 1) rest <;> cases hp : firesPut i l <;>
      simp [lastIdx, oGet, h, hp]

theorem scanAux_exists_lm (ls : List String) : ∀ (i : Nat) (st : ScanState),
    (scanAux i st ls).exists_method_start =
      oGet (lastIdx firesExists i ls) st.exists_method_start := by
  induction ls with
  | nil => intro i st; rfl
  | cons l rest ih =>
    intro i st
    show (scanAux (i + 1) (step st i l) rest).exists_method_start = _
    rw [ih, step_exists_lm]
    cases h : lastIdx firesExists (i + 1) rest <;> cases hp : firesExists i l <;>
      simp [lastIdx, oGet, h, hp]

theorem scanAux_block (ls : List String) : ∀ (i : Nat) (st : ScanState),
    (scanAux i st ls).list_objects_end =
      oGet (lastIdx firesBlock i ls) st.list_objects_end := by
  induction ls with
  | nil => intro i st; rfl
  | cons l rest ih =>
    intro i st
    show (scanAux (i + 1) (step st i l) rest).list_objects_end = _
    rw [ih, step_block]
    cases h : lastIdx firesBlock (i + 1) rest <;> cases hp : firesBlock i l <;>
      simp [lastIdx, oGet, h, hp]

theorem scan_put_eq (lines : List String) :
    (scan lines).put_method_start = lastIdx firesPut 0 lines := by
  rw [scan, scanAux_put]
  cases h : lastIdx firesPut 0 lines <;> simp [oGet, initState]

theorem scan_exists_eq (lines : List String) :
    (scan lines).exists_method_start = lastIdx firesExists 0 lines := by
  rw [scan, scanAux_exists_lm]
  cases h : lastIdx firesExists 0 lines <;> simp [oGet, initState]

theorem scan_block_eq (lines : List String) :
    (scan lines).list_objects_end = lastIdx firesBlock 0 lines := by
  rw [scan, scanAux_block]
  cases h : lastIdx firesBlock 0 lines <;> simp [oGet, initState]

theorem lastIdx_eq_none (p : Nat → String → Bool) :
    ∀ (ls : List String) (i : Nat),
      lastIdx p i ls = none ↔ ∀ k, k < ls.length → p (i + k) (ls.getD k "") = false := by
  intro ls
  induction ls with
  | nil => intro i; simp [lastIdx]
  | cons l rest ih =>
    intro i
    constructor
    · intro h k hk
      rw [lastIdx] at h
      cases hr : lastIdx p (i + 1) rest with
      | some j => rw [hr] at h; exact absurd h (by simp)
      | none =>
        rw [hr] at h
        cases hp : p i l with
        | true => rw [hp] at h; exact absurd h (by simp)
        | false =>
          cases k with
          | zero => simpa using hp
          | succ k =>
            have hk' : k < rest.length := by simpa using hk
            have := (ih (i + 1)).mp hr k hk'
            have harith : i + 1 + k = i + (k + 1) := by omega
            rw [harith] at this
            simpa using this
    · intro h
      rw [lastIdx]
      have h0 : p i l = false := by simpa using h 0 (by simp)
      have hr : lastIdx p (i + 1) rest = none := by
        refine (ih (i + 1)).mpr ?_
        intro k hk
        have := h (k + 1) (by simpa using Nat.succ_lt_succ hk)
        have harith : i + (k + 1) = i + 1 + k := by omega
        rw [harith] at this
        simpa using this
      rw [hr, h0]
      simp

theorem lastIdx_eq_some (p : Nat → String → Bool) :
    ∀ (ls : List String) (i j : Nat), lastIdx p i ls = some j →
      i ≤ j ∧ j < i + ls.length ∧ p j (ls.getD (j - i) "") = true ∧
      ∀ m, j < m → m < i + ls.length → p m (ls.getD (m - i) "") = false := by
  intro ls
  induction ls with
  | nil => intro i j h; exact absurd h (by simp [lastIdx])
  | cons l rest ih =>
    intro i j h
    rw [lastIdx] at h
    cases hr : lastIdx p (i + 1) rest with
    | some j' =>
      rw [hr] at h
      have hj : j' = j := by simpa using h
      subst hj
      obtain ⟨h1, h2, h3, h4⟩ := ih (i + 1) j' hr
      refine ⟨by omega, by simp; omega, ?_, ?_⟩
      · have hd : j' - i = (j' - (i + 1)) + 1 := by omega
        rw [hd, List.getD_cons_succ]
        exact h3
      · intro m hm1 hm2
        have hd : m - i = (m - (i + 1)) + 1 := by omega
        rw [hd, List.getD_cons_succ]
        exact h4 m hm1 (by simp at hm2; omega)
    | none =>
      rw [hr] at h
      cases hp : p i l with
      | false => rw [hp] at h; exact absurd h (by simp)
      | true =>
        rw [hp] at h
        have hj : i = j := by simpa using h
        subst hj
        refine ⟨Nat.le_refl i, by simp, by simpa using hp, ?_⟩
        intro m hm1 hm2
        have hd : m - i = (m - (i + 1)) + 1 := by omega
        rw [hd, List.getD_cons_succ]
        have := (lastIdx_eq_none p rest (i + 1)).mp hr (m - (i + 1)) (by simp at hm2; omega)
        have harith : i + 1 + (m - (i + 1)) = m := by omega
        rw [harith] at this
        exact this

/-- A set landmark is a valid index, its line fires the landmark's rule,
and no later line fires it: packaged for the put landmark. -/
theorem scan_put_some (lines : List String) (j : Nat)
    (h : (scan lines).put_method_start = some j) :
    j < lines.length ∧ firesPut j (lines.getD j "") = true ∧
    ∀ m, m < lines.length → firesPut m (lines.getD m "") = true → m ≤ j := by
  rw [scan_put_eq] at h
  obtain ⟨h1, h2, h3, h4⟩ := lastIdx_eq_some firesPut lines 0 j h
  simp only [Nat.zero_add] at h2
  simp only [Nat.sub_zero] at h3 h4
  refine ⟨h2, h3, ?_⟩
  intro m hm hfire
  by_contra hgt
  have := h4 m (by omega) (by omega)
  rw [hfire] at this
  exact absurd this (by simp)

/-- Same packaging for the exists landmark. -/
theorem scan_exists_some (lines : List String) (j : Nat)
    (h : (scan lines).exists_method_start = some j) :
    j < lines.length ∧ firesExists j (lines.getD j "") = true ∧
    ∀ m, m < lines.length → firesExists m (lines.getD m "") = true → m ≤ j := by
  rw [scan_exists_eq] at h
  obtain ⟨h1, h2, h3, h4⟩ := lastIdx_eq_some firesExists lines 0 j h
  simp only [Nat.zero_add] at h2
  simp only [Nat.sub_zero] at h3 h4
  refine ⟨h2, h3, ?_⟩
  intro m hm hfire
  by_contra hgt
  have := h4 m (by omega) (by omega)
  rw [hfire] at this
  exact absurd this (by simp)

/-- Same packaging for the block-end landmark. -/
theorem scan_block_some (lines : List String) (j : Nat)
    (h : (scan lines).list_objects_end = some j) :
    j < lines.length ∧ firesBlock j (lines.getD j "") = true ∧
    ∀ m, m < lines.length → firesBlock m (lines.getD m "") = true → m ≤ j := by
  rw [scan_block_eq] at h
  obtain ⟨h1, h2, h3, h4⟩ := lastIdx_eq_some firesBlock lines 0 j h
  simp only [Nat.zero_add] at h2
  simp only [Nat.sub_zero] at h3 h4
  refine ⟨h2, h3, ?_⟩
  intro m hm hfire
  by_contra hgt
  have := h4 m (by omega) (by omega)
  rw [hfire] at this
  exact absurd this (by simp)

/-- Python None is falsy. -/
theorem pyTruthy_none : pyTruthy none = false := rfl

/-- The Python integer 0 is falsy. -/
theorem pyTruthy_zero : pyTruthy (some 0) = false := rfl

/-! ### Concrete documents used as witnesses and counterexamples -/

/-- A document whose last put-signature line is at index 0 and whose
exists-signature line is at index 11. -/
def c1doc : List String :=
  [putNeedle, "x", "x", "x", "x", "x", "x", "x", "x", "x", "x", existsNeedle]

/-- A document with put-signature lines at indices 0 and 2 and an
exists-signature line at index 3. -/
def c2doc : List String := [putNeedle, "x", putNeedle, existsNeedle]

/-- A 702-line document whose last line, at index 701, is a lone closing
brace inside the window. -/
def c4doc : List String := List.replicate 701 "x" ++ ["\x7d"]

/-- A 13-line document with the put-signature line at index 1 and the
exists-signature line at index 12, so that a one-line excerpt is printed. -/
def c9doc : List String :=
  ["x", putNeedle, "x", "x", "x", "x", "x", "x", "x", "x", "x", "x", existsNeedle]

/-! ### The claims -/

/-- C2: for every document and each of the three landmarks, the index
reported for that landmark, if set, equals the highest line index among all
lines firing that landmark's rule under the if/elif evaluation order: the
line at the reported index fires the rule, and every other firing line has
a smaller or equal index (last match wins, never the first). -/
theorem c2_last_match (lines : List String) :
    (∀ j, (scan lines).put_method_start = some j →
      j < lines.length ∧ firesPut j (lines.getD j "") = true ∧
      ∀ m, m < lines.length → firesPut m (lines.getD m "") = true → m ≤ j) ∧
    (∀ j, (scan lines).exists_method_start = some j →
      j < lines.length ∧ firesExists j (lines.getD j "") = true ∧
      ∀ m, m < lines.length → firesExists m (lines.getD m "") = true → m ≤ j) ∧
    (∀ j, (scan lines).list_objects_end = some j →
      j < lines.length ∧ firesBlock j (lines.getD j "") = true ∧
      ∀ m, m < lines.length → firesBlock m (lines.getD m "") = true → m ≤ j) :=
  ⟨fun j h => scan_put_some lines j h,
   fun j h => scan_exists_some lines j h,
   fun j h => scan_block_some lines j h⟩

/-- C2 witness: on c2doc the put landmark is reported at index 2, the last
of the two put-signature lines, and every firing line has index at most 2. -/
theorem c2_witness :
    2 < c2doc.length ∧ firesPut 2 (c2doc.getD 2 "") = true ∧
    ∀ m, m < c2doc.length → firesPut m (c2doc.getD m "") = true → m ≤ 2 :=
  (c2_last_match c2doc).1 2 rfl

/-- C4: the block-end landmark is set to an index j only when 700 < j,
j < 720, and the line at j stripped of surrounding whitespace is exactly a
lone closing brace; in particular a lone closing-brace line outside the
open window (700, 720) never sets it. -/
theorem c4_block_window (lines : List String) (j : Nat)
    (h : (scan lines).list_objects_end = some j) :
    700 < j ∧ j < 720 ∧ pyStrip (lines.getD j "") = "\x7d" := by
  obtain ⟨hlen, hfire, hlast⟩ := scan_block_some lines j h
  simp only [firesBlock, match3, Bool.and_eq_true, decide_eq_true_eq,
    beq_iff_eq] at hfire
  exact ⟨hfire.2.1.1, hfire.2.2, hfire.2.1.2⟩

set_option maxRecDepth 100000 in
/-- C4 witness: on c4doc the block-end landmark is set to 701, which lies
in the window and whose line strips to a lone closing brace. -/
theorem c4_witness :
    700 < 701 ∧ 701 < 720 ∧ pyStrip (c4doc.getD 701 "") = "\x7d" :=
  c4_block_window c4doc 701 (by rfl)

/-- C5: per line at most one match rule applies, and it is the earliest
applicable one in the order rule 1 (put substring), rule 2 (exists
substring), rule 3 (brace window): when rule 1 matches only the put
landmark is overwritten, rule 2 takes effect only when rule 1 failed, rule
3 only when rules 1 and 2 failed, and when no rule matches the state is
unchanged.  In particular a line matching both a method-signature rule and
the brace-window rule is classified by the method-signature rule. -/
theorem c5_rule_precedence (st : ScanState) (i : Nat) (line : String) :
    (match1 line = true → step st i line = { st with put_method_start := some i }) ∧
    (match1 line = false → match2 line = true →
      step st i line = { st with exists_method_start := some i }) ∧
    (match1 line = false → match2 line = false → match3 i line = true →
      step st i line = { st with list_objects_end := some i }) ∧
    (match1 line = false → match2 line = false → match3 i line = false →
      step st i line = st) := by
  refine ⟨fun h1 => ?_, fun h1 h2 => ?_, fun h1 h2 h3 => ?_, fun h1 h2 h3 => ?_⟩ <;>
    simp [step, h1]
  · simp [h2]
  · simp [h2, h3]
  · simp [h2, h3]

/-- C5 witness: a line consisting of the put-signature substring is
classified by rule 1, overwriting only the put landmark. -/
theorem c5_witness :
    step initState 0 putNeedle = { initState with put_method_start := some 0 } :=
  (c5_rule_precedence initState 0 putNeedle).1 (by rfl)

/-- C10: after the scan, any two landmarks that are both set hold distinct
line indices, because the if/elif chain classifies each line by at most one
rule. -/
theorem c10_landmarks_distinct (lines : List String) :
    (∀ i j, (scan lines).put_method_start = some i →
      (scan lines).exists_method_start = some j → i ≠ j) ∧
    (∀ i j, (scan lines).put_method_start = some i →
      (scan lines).list_objects_end = some j → i ≠ j) ∧
    (∀ i j, (scan lines).exists_method_start = some i →
      (scan lines).list_objects_end = some j → i ≠ j) := by
  refine ⟨fun i j hi hj hij => ?_, fun i j hi hj hij => ?_, fun i j hi hj hij => ?_⟩
  · have h1 := (scan_put_some lines i hi).2.1
    have h2 := (scan_exists_some lines j hj).2.1
    subst hij
    simp only [firesPut] at h1
    simp only [firesExists, Bool.and_eq_true, Bool.not_eq_true'] at h2
    rw [h1] at h2
    exact absurd h2.1 (by simp)
  · have h1 := (scan_put_some lines i hi).2.1
    have h2 := (scan_block_some lines j hj).2.1
    subst hij
    simp only [firesPut] at h1
    simp only [firesBlock, Bool.and_eq_true, Bool.not_eq_true'] at h2
    rw [h1] at h2
    exact absurd h2.1.1 (by simp)
  · have h1 := (scan_exists_some lines i hi).2.1
    have h2 := (scan_block_some lines j hj).2.1
    subst hij
    simp only [firesExists, Bool.and_eq_true, Bool.not_eq_true'] at h1
    simp only [firesBlock, Bool.and_eq_true, Bool.not_eq_true'] at h2
    rw [h1.2] at h2
    exact absurd h2.1.2 (by simp)

/-- C10 witness: on c9doc the put and exists landmarks are both set and
hold the distinct indices 1 and 12. -/
theorem c10_witness :
    (scan c9doc).put_method_start = some 1 ∧
    (scan c9doc).exists_method_start = some 12 ∧ (1 : Nat) ≠ 12 :=
  ⟨rfl, rfl, (c10_landmarks_distinct c9doc).1 1 12 rfl rfl⟩

/-- C3: whenever the put landmark is unset, or the exists landmark is
unset, or putStart + 10 is at least existsStart, no excerpt line is
printed, and the run is not an error: the three landmark status lines are
still reported. -/
theorem c3_no_excerpt (lines : List String)
    (h : (scan lines).put_method_start = none ∨
      (scan lines).exists_method_start = none ∨
      ∀ p e, (scan lines).put_method_start = some p →
        (scan lines).exists_method_start = some e → e ≤ p + 10) :
    (report lines).excerptLines = [] ∧ (report lines).statusLines.length = 3 := by
  refine ⟨?_, by simp [report]⟩
  cases hp : (scan lines).put_method_start with
  | none => simp [report, hp]
  | some p =>
    cases he : (scan lines).exists_method_start with
    | none => simp [report, hp, he]
    | some e =>
      have hle : e ≤ p + 10 := by
        rcases h with h | h | h
        · rw [hp] at h; exact absurd h (by simp)
        · rw [he] at h; exact absurd h (by simp)
        · exact h p e hp he
      have hrange : excerptRange p e = [] := by
        unfold excerptRange
        have hz : min (p + 20) e - (p + 10) = 0 := by omega
        rw [hz]
        rfl
      simp [report, hp, he, hrange]

/-- C3 witness: a one-line document with no matches yields no excerpt
lines and still reports all three status lines. -/
theorem c3_witness :
    (report ["x"]).excerptLines = [] ∧ (report ["x"]).statusLines.length = 3 :=
  c3_no_excerpt ["x"] (Or.inl rfl)

/-- C6: a document (the empty one included) in which no line matches
rule 1, rule 2 or rule 3 leaves all three landmarks unset, prints the
three status lines with the unset indicator, and prints neither an excerpt
header nor excerpt lines. -/
theorem c6_no_match_all_unset (lines : List String)
    (h : ∀ k, k < lines.length → match1 (lines.getD k "") = false ∧
      match2 (lines.getD k "") = false ∧ match3 k (lines.getD k "") = false) :
    (scan lines).put_method_start = none ∧
    (scan lines).exists_method_start = none ∧
    (scan lines).list_objects_end = none ∧
    (report lines).statusLines = [
      "put method starts at line None",
      "exists method starts at line None",
      "list_objects_end around line None"] ∧
    (report lines).excerptHeader = none ∧
    (report lines).excerptLines = [] := by
  have hput : (scan lines).put_method_start = none := by
    rw [scan_put_eq]
    refine (lastIdx_eq_none _ lines 0).mpr fun k hk => ?_
    simp only [Nat.zero_add]
    simpa [firesPut] using (h k hk).1
  have hex : (scan lines).exists_method_start = none := by
    rw [scan_exists_eq]
    refine (lastIdx_eq_none _ lines 0).mpr fun k hk => ?_
    simp only [Nat.zero_add, firesExists]
    rw [(h k hk).2.1]
    simp
  have hblock : (scan lines).list_objects_end = none := by
    rw [scan_block_eq]
    refine (lastIdx_eq_none _ lines 0).mpr fun k hk => ?_
    simp only [Nat.zero_add, firesBlock]
    rw [(h k hk).2.2]
    simp
  refine ⟨hput, hex, hblock, ?_, ?_, ?_⟩ <;>
    simp [report, hput, hex, hblock, optRepr, pyTruthy]

/-- C6 witness: the empty document yields all landmarks unset and no
excerpt. -/
theorem c6_witness :
    (scan ([] : List String)).put_method_start = none ∧
    (scan ([] : List String)).exists_method_start = none ∧
    (scan ([] : List String)).list_objects_end = none ∧
    (report ([] : List String)).statusLines = [
      "put method starts at line None",
      "exists method starts at line None",
      "list_objects_end around line None"] ∧
    (report ([] : List String)).excerptHeader = none ∧
    (report ([] : List String)).excerptLines = [] :=
  c6_no_match_all_unset [] (fun _ hk => absurd hk (by simp))

/-- C7: the run fails exactly when reading the file fails, the read
failure propagates unchanged to the caller, and on a successful read the
report is produced; reading is the only error condition. -/
theorem c7_error_propagation (r : Except String String) :
    ((runProgram r).isOk = r.isOk) ∧
    (∀ e, r = Except.error e → runProgram r = Except.error e) ∧
    (∀ content, r = Except.ok content →
      runProgram r = Except.ok (report (content.splitOn "\n"))) := by
  cases r <;> simp [runProgram, Except.isOk, Except.toBool]

/-- C7 witness: on a failed read the failure propagates and no report is
produced. -/
theorem c7_witness :
    ((runProgram (Except.error "No such file or directory")).isOk =
      (Except.error "No such file or directory" : Except String String).isOk) ∧
    (∀ e, (Except.error "No such file or directory" : Except String String) =
      Except.error e →
      runProgram (Except.error "No such file or directory") = Except.error e) ∧
    (∀ content, (Except.error "No such file or directory" : Except String String) =
      Except.ok content →
      runProgram (Except.error "No such file or directory") =
        Except.ok (report (content.splitOn "\n"))) :=
  c7_error_propagation (Except.error "No such file or directory")

/-- C8: when the last line matching the put rule has index 0 (or the last
line matching the exists rule has index 0), neither the excerpt header nor
any excerpt line is printed, because the guard tests the landmark
variables for Python truthiness and the integer 0 is falsy. -/
theorem c8_zero_index_truthiness (lines : List String)
    (h : (scan lines).put_method_start = some 0 ∨
      (scan lines).exists_method_start = some 0) :
    (report lines).excerptHeader = none ∧ (report lines).excerptLines = [] := by
  cases h with
  | inl hp =>
    cases he : (scan lines).exists_method_start <;>
      simp [report, hp, he, pyTruthy_zero]
  | inr he =>
    cases hp : (scan lines).put_method_start with
    | none => simp [report, hp, he, pyTruthy_none, pyTruthy_zero]
    | some p =>
      cases p <;> simp [report, hp, he, pyTruthy_zero]

/-- C8 witness: on c1doc both landmarks hold an index, putStart is 0 and
putStart + 10 < existsStart, yet no header and no excerpt lines are
printed. -/
theorem c8_witness :
    (report c1doc).excerptHeader = none ∧ (report c1doc).excerptLines = [] :=
  c8_zero_index_truthiness c1doc (Or.inl rfl)

/-- C1 counterexample: on c1doc both landmarks are set (putStart = 0,
existsStart = 11) and putStart + 10 < existsStart, yet the excerpt printed
is empty rather than the line with index 10 the claim requires. -/
theorem c1_counterexample :
    (scan c1doc).put_method_start = some 0 ∧
    (scan c1doc).exists_method_start = some 11 ∧
    0 + 10 < 11 ∧
    (report c1doc).excerptLines = [] ∧
    (report c1doc).excerptLines ≠ [excerptLine c1doc 10] := by
  refine ⟨rfl, rfl, by omega, rfl, ?_⟩
  rw [show (report c1doc).excerptLines = [] from rfl]
  simp

/-- C1 (amended): for every document in which both putStart and
existsStart are set, putStart is nonzero, and putStart + 10 < existsStart,
the excerpt printed consists of exactly the document's lines with indices
from putStart + 10 through min(putStart + 20, existsStart) - 1 inclusive,
in index order, each prefixed with its original zero-based index. -/
theorem c1_amended (lines : List String) (p e : Nat)
    (hp : (scan lines).put_method_start = some p)
    (he : (scan lines).exists_method_start = some e)
    (hp0 : p ≠ 0) (hlt : p + 10 < e) :
    (report lines).excerptLines.length = min (p + 20) e - (p + 10) ∧
    ∀ k, k < min (p + 20) e - (p + 10) →
      (report lines).excerptLines.getD k "" =
        toString (p + 10 + k) ++ ": " ++ lines.getD (p + 10 + k) "" := by
  have htp : pyTruthy (some p) = true := by
    cases p with
    | zero => exact absurd rfl hp0
    | succ n => rfl
  have hte : pyTruthy (some e) = true := by
    cases e with
    | zero => omega
    | succ n => rfl
  have hlines : (report lines).excerptLines =
      (excerptRange p e).map (excerptLine lines) := by
    simp [report, hp, he, htp, hte]
  rw [hlines]
  constructor
  · simp [excerptRange]
  · intro k hk
    have hk' : k < ((excerptRange p e).map (excerptLine lines)).length := by
      simpa [excerptRange] using hk
    have hk2 : k < (excerptRange p e).length := by
      simpa [excerptRange] using hk
    rw [List.getD_eq_getElem _ _ hk', List.getElem_map]
    have hidx : (excerptRange p e)[k] = p + 10 + k := by
      simp [excerptRange, List.getElem_range'_1]
    rw [hidx]
    rfl

/-- C1 witness: on c9doc (putStart = 1, existsStart = 12) the excerpt is
the single line of index 11 prefixed with 11. -/
theorem c1_witness :
    (report c9doc).excerptLines.length = min (1 + 20) 12 - (1 + 10) ∧
    ∀ k, k < min (1 + 20) 12 - (1 + 10) →
      (report c9doc).excerptLines.getD k "" =
        toString (1 + 10 + k) ++ ": " ++ c9doc.getD (1 + 10 + k) "" :=
  c1_amended c9doc 1 12 rfl rfl (by omega) (by omega)

/-- C9: every index in the excerpt loop's range is strictly below the
number of lines in the document: the exclusive upper bound
min(putStart + 20, existsStart) never exceeds existsStart, which is the
index of an existing line. -/
theorem c9_excerpt_in_bounds (lines : List String) (p e i : Nat)
    (_hp : (scan lines).put_method_start = some p)
    (he : (scan lines).exists_method_start = some e)
    (hi : i ∈ excerptRange p e) :
    i < lines.length := by
  have hlen : e < lines.length := (scan_exists_some lines e he).1
  have hmem := List.mem_range'_1.mp hi
  have hmin : min (p + 20) e ≤ e := Nat.min_le_right _ _
  omega

/-- C9 witness: on c9doc the only excerpt index, 11, is below the
document's length 13. -/
theorem c9_witness : 11 < c9doc.length :=
  c9_excerpt_in_bounds c9doc 1 12 11 rfl rfl (by decide)

end FixS3
